import Mathlib

/-!
A shallow embedding of the go-dropbox client library: the request
dispatcher, the typed endpoint request builders, the paginated listing
walker and the streaming file handle, together with theorems checking
the library's specification against this embedding.
-/

namespace GoDropbox

/-- Source constant `WriteModeAdd` (files.go): the `add` write mode. -/
def WriteModeAdd : String := "add"

/-- Source constant `WriteModeOverwrite` (files.go): the `overwrite` write mode. -/
def WriteModeOverwrite : String := "overwrite"

/-- Renders a Bool the way Go's encoding/json renders it. -/
def jsonBool : Bool → String
  | true => "true"
  | false => "false"

/-- Body of an HTTP request as built by the client: control calls carry a
JSON text body, uploads carry raw bytes, downloads carry no body. -/
inductive ReqBody where
  | empty : ReqBody
  | json (s : String) : ReqBody
  | bytes (b : List Nat) : ReqBody
deriving DecidableEq

/-- An HTTP request as prepared by `Client.call` / `Client.download` /
`Client.pipe`: URL, headers in the order they are set, and the body. -/
structure Req where
  url : String
  headers : List (String × String)
  body : ReqBody
deriving DecidableEq

/-- An HTTP response as seen by `Client.do`: numeric status, the response
`Content-Type` header, the body (bytes modelled as text) and the advertised
content length. -/
structure HttpResp where
  statusCode : Nat
  contentTypeHdr : String
  body : String
  contentLength : Int
deriving DecidableEq

/-- Modelled from the spec: the repository's `Error` type, whose definition
lives in a file missing from src/ (only its construction sites in
`Client.do` are present). Per the spec (§3, §4.B) it carries the HTTP
status text, the numeric status code, and either a free-form summary
(plain-text body) or a service-specific JSON payload, the latter
represented here by the raw JSON body text. -/
structure Error where
  Status : String
  StatusCode : Nat
  Summary : String
  Payload : Option String
deriving DecidableEq

/-- Outcome of the dispatcher: a transport failure (the HTTP client
errored before a response) or a decoded service error. -/
inductive DoErr where
  | transportErr (e : String) : DoErr
  | service (e : Error) : DoErr
deriving DecidableEq

/-- Models Go's `http.StatusText` for the status codes used in this
development; unknown codes map to `""` exactly as in the Go stdlib. -/
def statusText : Nat → String
  | 200 => "OK"
  | 400 => "Bad Request"
  | 401 => "Unauthorized"
  | 403 => "Forbidden"
  | 404 => "Not Found"
  | 409 => "Conflict"
  | 429 => "Too Many Requests"
  | 500 => "Internal Server Error"
  | 503 => "Service Unavailable"
  | _ => ""

/-- Occurrence of `pat` as a contiguous run inside `s`, over char lists. -/
def listContains (pat : List Char) : List Char → Bool
  | [] => pat.isEmpty
  | c :: rest => pat.isPrefixOf (c :: rest) || listContains pat rest

/-- Models Go's `strings.Contains`: `pat` occurs somewhere in `s`. -/
def containsSub (s pat : String) : Bool :=
  listContains pat.data s.data

/-- Models Go's `strings.HasPrefix`: `s` begins with `pat`. -/
def goHasPrefix (s pat : String) : Bool :=
  pat.data.isPrefixOf s.data

/-- Embeds `Client.do`: given the transport's outcome for the prepared
request, pass a `< 400` response's body and content length through to the
caller unconsumed; on status `≥ 400` build a service `Error` carrying the
numeric status and the standard status text, filling the summary from a
`text/plain` body and the structured payload from any other body. -/
def doRequest (r : Except String HttpResp) : Except DoErr (String × Int) :=
  match r with
  | .error e => .error (.transportErr e)
  | .ok res =>
    if res.statusCode < 400 then
      .ok (res.body, res.contentLength)
    else
      let e : Error :=
        { Status := statusText res.statusCode, StatusCode := res.statusCode,
          Summary := "", Payload := none }
      if containsSub res.contentTypeHdr "text/plain" then
        .error (.service { e with Summary := res.body })
      else
        .error (.service { e with Payload := some res.body })

/-- Embeds the request built by `Client.call`: POST to the control base
with bearer token and JSON content type, JSON in the body. -/
def controlReq (token path jsonBody : String) : Req :=
  { url := "https://api.dropboxapi.com/2" ++ path,
    headers := [("Authorization", "Bearer " ++ token),
                ("Content-Type", "application/json")],
    body := .json jsonBody }

/-- Embeds the request built by `Client.download`: POST to the content
base, bearer token, the marshalled request record in the
`Dropbox-API-Arg` header, and — only when a body reader is supplied — an
`application/octet-stream` content type and the body bytes. -/
def contentReq (token path argJson : String) (r : Option (List Nat)) : Req :=
  { url := "https://content.dropboxapi.com/2" ++ path,
    headers := [("Authorization", "Bearer " ++ token),
                ("Dropbox-API-Arg", argJson)] ++
      (match r with
       | some _ => [("Content-Type", "application/octet-stream")]
       | none => []),
    body := match r with
            | some b => .bytes b
            | none => .empty }

/-- Embeds the request built by `Client.pipe` (raw stream variant): like a
content call with no body, but the header-filter callback runs over the
headers before dispatch. -/
def pipeReq (token path argJson : String)
    (filter : Option (List (String × String) → List (String × String))) : Req :=
  let hdrs := [("Authorization", "Bearer " ++ token),
               ("Dropbox-API-Arg", argJson)]
  { url := "https://content.dropboxapi.com/2" ++ path,
    headers := match filter with
               | some g => g hdrs
               | none => hdrs,
    body := .empty }

/-- Embeds `Client.pipe`: build the raw-stream request and return the
transport's outcome as is — no status inspection, no error decoding. -/
def Client.pipe (token path argJson : String)
    (filter : Option (List (String × String) → List (String × String)))
    (transport : Req → Except String HttpResp) : Except String HttpResp :=
  transport (pipeReq token path argJson filter)

/-- Source struct `GetMetadataInput` (files.go). -/
structure GetMetadataInput where
  Path : String
  IncludeMediaInfo : Bool
deriving DecidableEq

/-- JSON marshalling of `GetMetadataInput` (Go struct tags `path`,
`include_media_info`; string escaping modelled naively). -/
def GetMetadataInput.marshal (i : GetMetadataInput) : String :=
  "\x7b\"path\":\"" ++ i.Path ++ "\",\"include_media_info\":" ++
    jsonBool i.IncludeMediaInfo ++ "\x7d"

/-- Source struct `ListFolderInput` (files.go). -/
structure ListFolderInput where
  Path : String
  Recursive : Bool
  IncludeMediaInfo : Bool
  IncludeDeleted : Bool
deriving DecidableEq

/-- JSON marshalling of `ListFolderInput` (tags `path`, `recursive`,
`include_media_info`, `include_deleted`). -/
def ListFolderInput.marshal (i : ListFolderInput) : String :=
  "\x7b\"path\":\"" ++ i.Path ++ "\",\"recursive\":" ++ jsonBool i.Recursive ++
    ",\"include_media_info\":" ++ jsonBool i.IncludeMediaInfo ++
    ",\"include_deleted\":" ++ jsonBool i.IncludeDeleted ++ "\x7d"

/-- Source struct `ListFolderContinueInput` (files.go). -/
structure ListFolderContinueInput where
  Cursor : String
deriving DecidableEq

/-- JSON marshalling of `ListFolderContinueInput` (tag `cursor`). -/
def ListFolderContinueInput.marshal (i : ListFolderContinueInput) : String :=
  "\x7b\"cursor\":\"" ++ i.Cursor ++ "\"\x7d"

/-- Source struct `DownloadInput` (files.go). -/
structure DownloadInput where
  Path : String
deriving DecidableEq

/-- JSON marshalling of `DownloadInput` (tag `path`). -/
def DownloadInput.marshal (i : DownloadInput) : String :=
  "\x7b\"path\":\"" ++ i.Path ++ "\"\x7d"

/-- Source struct `UploadInput` (files.go); the `Reader` field carries the
body and is excluded from JSON (`json:"-"`), so it is not a field here —
the body travels separately in the embedding. -/
structure UploadInput where
  Path : String
  Mode : String
  AutoRename : Bool
  Mute : Bool
  ClientModified : String
deriving DecidableEq

/-- JSON marshalling of `UploadInput` (tags `path`, `mode`, `autorename`,
`mute`, `client_modified,omitempty`; field order as declared in the Go
struct, which `encoding/json` preserves). -/
def UploadInput.marshal (i : UploadInput) : String :=
  "\x7b\"path\":\"" ++ i.Path ++ "\",\"mode\":\"" ++ i.Mode ++
    "\",\"autorename\":" ++ jsonBool i.AutoRename ++
    ",\"mute\":" ++ jsonBool i.Mute ++
    (if i.ClientModified = "" then ""
     else ",\"client_modified\":\"" ++ i.ClientModified ++ "\"") ++ "\x7d"

/-- Source function `normalizePath` (files.go): a single `/` becomes the
empty string, every other path passes through unchanged. -/
def normalizePath (s : String) : String :=
  if s = "/" then "" else s

/-- Embeds the request side of `Files.GetMetadata`: a control call to
`/files/get_metadata` with the input marshalled verbatim. -/
def Files.GetMetadata (token : String) (i : GetMetadataInput) : Req :=
  controlReq token "/files/get_metadata" i.marshal

/-- Embeds the request side of `Files.ListFolder`, which first overwrites
the caller's input record with `in.Path = normalizePath(in.Path)` and then
issues a control call to `/files/list_folder`. Returns the request
together with the mutated input record. -/
def Files.ListFolder (token : String) (i : ListFolderInput) :
    Req × ListFolderInput :=
  let i2 := { i with Path := normalizePath i.Path }
  (controlReq token "/files/list_folder" i2.marshal, i2)

/-- Embeds the request side of `Files.ListFolderContinue`: a control call
to `/files/list_folder/continue` with the cursor marshalled verbatim. -/
def Files.ListFolderContinue (token : String) (i : ListFolderContinueInput) : Req :=
  controlReq token "/files/list_folder/continue" i.marshal

/-- Embeds the request side of `Files.Download`: a content call to
`/files/download` with no request body. -/
def Files.Download (token : String) (i : DownloadInput) : Req :=
  contentReq token "/files/download" i.marshal none

/-- Embeds the request side of `Files.Upload`: a content call to
`/files/upload` whose body is the reader's bytes. -/
def Files.Upload (token : String) (i : UploadInput) (bodyBytes : List Nat) : Req :=
  contentReq token "/files/upload" i.marshal (some bodyBytes)

/-- Embeds `Files.Stream`: delegates to `Client.pipe` on `/files/download`. -/
def Files.Stream (token : String) (i : DownloadInput)
    (filter : Option (List (String × String) → List (String × String)))
    (transport : Req → Except String HttpResp) : Except String HttpResp :=
  Client.pipe token "/files/download" i.marshal filter transport

/-- Embeds `Client.GetStream`: `Files.Stream` on a `DownloadInput` built
from the name. -/
def Client.GetStream (token name : String)
    (filter : Option (List (String × String) → List (String × String)))
    (transport : Req → Except String HttpResp) : Except String HttpResp :=
  Files.Stream token { Path := name } filter transport

/-- C4: the list-folder operation sends the empty string on the wire when
its input path is exactly "/" and sends every other path unchanged; no
other operation (get-metadata, download, upload, list-folder-continue)
alters its input path. -/
theorem listing_normalizes_only :
    normalizePath "/" = "" ∧
    (∀ s : String, s ≠ "/" → normalizePath s = s) ∧
    (∀ t i, (Files.ListFolder t i).1 =
      controlReq t "/files/list_folder"
        (ListFolderInput.marshal { i with Path := normalizePath i.Path })) ∧
    (∀ t rec mi del, (Files.ListFolder t
        { Path := "/", Recursive := rec, IncludeMediaInfo := mi,
          IncludeDeleted := del }).1 =
      controlReq t "/files/list_folder"
        (ListFolderInput.marshal
          { Path := "", Recursive := rec, IncludeMediaInfo := mi,
            IncludeDeleted := del })) ∧
    (∀ t i, Files.GetMetadata t i =
      controlReq t "/files/get_metadata" (GetMetadataInput.marshal i)) ∧
    (∀ t i, Files.Download t i =
      contentReq t "/files/download" (DownloadInput.marshal i) none) ∧
    (∀ t i b, Files.Upload t i b =
      contentReq t "/files/upload" (UploadInput.marshal i) (some b)) ∧
    (∀ t i, Files.ListFolderContinue t i =
      controlReq t "/files/list_folder/continue"
        (ListFolderContinueInput.marshal i)) := by
  refine ⟨rfl, ?_, fun t i => rfl, fun t rec mi del => rfl, fun t i => rfl,
    fun t i => rfl, fun t i b => rfl, fun t i => rfl⟩
  intro s hs
  simp [normalizePath, hs]

/-- Witness for `listing_normalizes_only` at the path "/a". -/
theorem listing_normalizes_only_witness :
    ("/a" : String) ≠ "/" ∧ normalizePath "/a" = "/a" :=
  ⟨by decide, listing_normalizes_only.2.1 "/a" (by decide)⟩

/-- C9: the list-folder operation mutates the caller-supplied input
record: afterwards its path field holds the normalized path (a caller who
passed "/" finds "" there), and every other field is unchanged. -/
theorem listFolder_mutates_input : ∀ (t : String) (i : ListFolderInput),
    ((Files.ListFolder t i).2).Path = normalizePath i.Path ∧
    ((Files.ListFolder t i).2).Recursive = i.Recursive ∧
    ((Files.ListFolder t i).2).IncludeMediaInfo = i.IncludeMediaInfo ∧
    ((Files.ListFolder t i).2).IncludeDeleted = i.IncludeDeleted ∧
    (i.Path = "/" → ((Files.ListFolder t i).2).Path = "") := by
  intro t i
  refine ⟨rfl, rfl, rfl, rfl, ?_⟩
  intro h
  simp [Files.ListFolder, normalizePath, h]

/-- Witness for `listFolder_mutates_input` at the root path "/". -/
theorem listFolder_mutates_input_witness :
    (({ Path := "/", Recursive := false, IncludeMediaInfo := true,
        IncludeDeleted := false } : ListFolderInput).Path = "/") ∧
    ((Files.ListFolder "tok"
      { Path := "/", Recursive := false, IncludeMediaInfo := true,
        IncludeDeleted := false }).2).Path = "" :=
  ⟨rfl, (listFolder_mutates_input "tok"
    { Path := "/", Recursive := false, IncludeMediaInfo := true,
      IncludeDeleted := false }).2.2.2.2 rfl⟩

/-- C7: on status ≥ 400 the dispatcher returns a service error carrying
the numeric status code and the standard HTTP status text, with the body
decoded by branch — a `text/plain` body becomes the summary, any other
body becomes the structured payload; on status < 400 no service error is
produced and the body is handed to the caller unconsumed. -/
theorem do_error_decoding : ∀ res : HttpResp,
    (400 ≤ res.statusCode → containsSub res.contentTypeHdr "text/plain" = true →
      doRequest (.ok res) = .error (.service
        { Status := statusText res.statusCode, StatusCode := res.statusCode,
          Summary := res.body, Payload := none })) ∧
    (400 ≤ res.statusCode → containsSub res.contentTypeHdr "text/plain" = false →
      doRequest (.ok res) = .error (.service
        { Status := statusText res.statusCode, StatusCode := res.statusCode,
          Summary := "", Payload := some res.body })) ∧
    (res.statusCode < 400 →
      doRequest (.ok res) = .ok (res.body, res.contentLength)) := by
  intro res
  refine ⟨?_, ?_, ?_⟩ <;> intro h
  · intro hct
    simp [doRequest, Nat.not_lt.mpr h, hct]
  · intro hct
    simp [doRequest, Nat.not_lt.mpr h, hct]
  · simp [doRequest, h]

/-- A 500 response with a plain-text body, for the dispatcher witness. -/
def respPlain500 : HttpResp :=
  { statusCode := 500, contentTypeHdr := "text/plain; charset=utf-8",
    body := "server overloaded", contentLength := 0 }

/-- A 500 response with a JSON body, for the dispatcher witness. -/
def respJson500 : HttpResp :=
  { statusCode := 500, contentTypeHdr := "application/json",
    body := "\x7b\"error_summary\":\"x\"\x7d", contentLength := 0 }

/-- A 200 response, for the dispatcher witness. -/
def respOk200 : HttpResp :=
  { statusCode := 200, contentTypeHdr := "application/octet-stream",
    body := "data", contentLength := 4 }

/-- Witness for `do_error_decoding`: a 500 `text/plain` response yields a
summary error, a 500 JSON response yields a payload error, and a 200
response passes its body through. -/
theorem do_error_decoding_witness :
    (400 ≤ respPlain500.statusCode ∧
      containsSub respPlain500.contentTypeHdr "text/plain" = true ∧
      doRequest (.ok respPlain500) = .error (.service
        { Status := "Internal Server Error", StatusCode := 500,
          Summary := "server overloaded", Payload := none })) ∧
    (doRequest (.ok respJson500) = .error (.service
        { Status := "Internal Server Error", StatusCode := 500,
          Summary := "", Payload := some "\x7b\"error_summary\":\"x\"\x7d" })) ∧
    (doRequest (.ok respOk200) = .ok ("data", 4)) :=
  ⟨⟨by decide, by decide,
    (do_error_decoding respPlain500).1 (by decide) (by decide)⟩,
   (do_error_decoding respJson500).2.1 (by decide) (by decide),
   (do_error_decoding respOk200).2.2 (by decide)⟩

/-- C10: the stream-download operation (and the get-stream convenience
over it) performs no error decoding: its result is exactly the
transport's outcome, so every HTTP response — including status ≥ 400 — is
returned raw with no error, and it fails only when the transport itself
fails. -/
theorem stream_no_error_decoding : ∀ (token name : String)
    (filter : Option (List (String × String) → List (String × String)))
    (transport : Req → Except String HttpResp),
    (Client.GetStream token name filter transport =
      transport (pipeReq token "/files/download"
        (DownloadInput.marshal { Path := name }) filter)) ∧
    (∀ i, Files.Stream token i filter transport =
      transport (pipeReq token "/files/download" i.marshal filter)) ∧
    (∀ res : HttpResp,
      transport (pipeReq token "/files/download"
        (DownloadInput.marshal { Path := name }) filter) = .ok res →
      Client.GetStream token name filter transport = .ok res) ∧
    (∀ e : String,
      transport (pipeReq token "/files/download"
        (DownloadInput.marshal { Path := name }) filter) = .error e →
      Client.GetStream token name filter transport = .error e) := by
  intro token name filter transport
  refine ⟨rfl, fun i => rfl, ?_, ?_⟩ <;> intro x hx
  · exact hx
  · exact hx

/-- A 409 response with an error body, for the stream witness. -/
def respConflict409 : HttpResp :=
  { statusCode := 409, contentTypeHdr := "application/json",
    body := "conflict", contentLength := 8 }

/-- Witness for `stream_no_error_decoding`: a transport answering a raw
409 response is returned as is, with no error, by get-stream. -/
theorem stream_no_error_decoding_witness :
    Client.GetStream "tok" "/a.bin" none (fun _ => .ok respConflict409) =
      .ok respConflict409 :=
  (stream_no_error_decoding "tok" "/a.bin" none
    (fun _ => .ok respConflict409)).2.2.1 respConflict409 rfl

/-- A Go error value seen through its `Error()` text, as
`File.download` inspects the failure of `Files.Download` only through
`err.Error()`. -/
structure ClientErr where
  text : String
deriving DecidableEq

/-- The `syscall` error numbers the handle uses. -/
inductive Errno where
  | ENOENT : Errno
  | EINVAL : Errno
deriving DecidableEq

/-- Errors surfaced by the streaming file handle and the listing walker. -/
inductive Err where
  | pathErr (op : String) (p : String) (code : Errno) : Err
  | client (e : ClientErr) : Err
  | closedPipe : Err
  | readClosedBody : Err
  | eofErr : Err
  | noPage : Err
deriving DecidableEq

instance {ε α : Type} [DecidableEq ε] [DecidableEq α] :
    DecidableEq (Except ε α) := fun x y =>
  match x, y with
  | .ok a, .ok b =>
    if h : a = b then isTrue (by rw [h])
    else isFalse (by intro hh; injection hh; contradiction)
  | .error a, .error b =>
    if h : a = b then isTrue (by rw [h])
    else isFalse (by intro hh; injection hh; contradiction)
  | .ok _, .error _ => isFalse (by intro hh; injection hh)
  | .error _, .ok _ => isFalse (by intro hh; injection hh)

/-- A download response body held by the handle: the bytes still to be
delivered and whether the body has been closed. -/
structure Body where
  buf : List Nat
  closed : Bool
deriving DecidableEq

/-- The streaming `File` handle (source struct `File`), together with the
state of its internal pipe and the fake transport's observation log. The
concurrent uploader is sequentialized: bytes written accumulate in
`pipeBuf` (the pipe holds them until the uploader's HTTP request consumes
them), and the upload request is observed complete when the pipe's writer
end closes at handle close, at which point the uploader closes the reader
end with the upload's outcome (`pipeRErr`). `downloadRes` is the fake
outcome of the download endpoint for this handle's path, and `calls`
records the content-endpoint requests the fake transport observed. -/
structure FileSt where
  Name : String
  token : String
  downloadRes : Except ClientErr (List Nat)
  closed : Bool := false
  writing : Bool := false
  reader : Option Body := none
  pipeBuf : List Nat := []
  pipeWClosed : Bool := false
  pipeRErr : Option (Option Err) := none
  calls : List Req := []
deriving DecidableEq

/-- Embeds `Client.Open`: a fresh idle handle on `name` with an open pipe. -/
def Client.Open (token name : String) (dl : Except ClientErr (List Nat)) : FileSt :=
  { Name := name, token := token, downloadRes := dl }

/-- Embeds the method `File.download`: call the download endpoint for the
handle's path; on an error whose text has the prefix `path/not_found/`,
return an `os.PathError` with op `open`, the path, and `ENOENT`; on any
other error return it unchanged; on success store the body in the handle. -/
def File.downloadOp (f : FileSt) : Except Err FileSt :=
  match f.downloadRes with
  | .error e =>
    if goHasPrefix e.text "path/not_found/" then
      .error (.pathErr "open" f.Name .ENOENT)
    else
      .error (.client e)
  | .ok bs => .ok { f with reader := some { buf := bs, closed := false } }

/-- Reading from the stored download body: a closed body errors, an open
body yields up to `n` bytes (io semantics of `Read` on a response body). -/
def File.readBody (f : FileSt) (n : Nat) : Except Err (List Nat) × FileSt :=
  match f.reader with
  | some r =>
    if r.closed then (.error .readClosedBody, f)
    else (.ok (r.buf.take n),
          { f with reader := some { buf := r.buf.drop n, closed := false } })
  | none => (.error .readClosedBody, f)

/-- Embeds `File.Read`: a first read (no stored body) triggers the lazy
download, then reads delegate to the stored body. -/
def File.ReadOp (f : FileSt) (n : Nat) : Except Err (List Nat) × FileSt :=
  match f.reader with
  | none =>
    match File.downloadOp f with
    | .error e => (.error e, f)
    | .ok f2 => File.readBody f2 n
  | some _ => File.readBody f n

/-- Embeds `File.Write`: the first write sets the writing flag and
launches the uploader consuming the pipe's reader end; then the bytes go
to the pipe's writer end. Writing to a pipe whose writer end is closed
yields `io.ErrClosedPipe`; writing after the reader end was closed with
an error yields that error (io.Pipe semantics). -/
def File.WriteOp (f : FileSt) (b : List Nat) : Except Err Nat × FileSt :=
  let f1 := if f.writing then f else { f with writing := true }
  if f1.pipeWClosed then (.error .closedPipe, f1)
  else
    match f1.pipeRErr with
    | some e => (.error (e.getD .closedPipe), f1)
    | none => (.ok b.length, { f1 with pipeBuf := f1.pipeBuf ++ b })

/-- Embeds `File.Close`: an already-closed handle yields an
`os.PathError` with op `close` and `EINVAL`, leaving the state untouched.
Otherwise mark closed; in writing state close the pipe's writer end,
which drains the pipe — the uploader's request to `/files/upload`
completes with the accumulated bytes as its body (observed by the fake
transport) and the uploader closes the reader end with its outcome — and
finally close any stored download body. -/
def File.CloseOp (f : FileSt) : Except Err Unit × FileSt :=
  if f.closed then
    (.error (.pathErr "close" f.Name .EINVAL), f)
  else
    let f1 := { f with closed := true }
    let f2 :=
      if f1.writing then
        { f1 with pipeWClosed := true,
                  calls := f1.calls ++
                    [Files.Upload f1.token
                      { Path := f1.Name, Mode := WriteModeOverwrite,
                        AutoRename := false, Mute := true,
                        ClientModified := "" } f1.pipeBuf],
                  pipeRErr := some none,
                  pipeBuf := [] }
      else f1
    match f2.reader with
    | some r => (.ok (), { f2 with reader := some { buf := r.buf, closed := true } })
    | none => (.ok (), f2)

/-- Runs a sequence of writes against a handle, keeping the final state. -/
def runWrites : FileSt → List (List Nat) → FileSt
  | f, [] => f
  | f, b :: rest => runWrites (File.WriteOp f b).2 rest

/-- The `Dropbox-API-Arg` value the uploader serializes for a handle. -/
def uploadArg (name : String) : String :=
  UploadInput.marshal
    { Path := name, Mode := WriteModeOverwrite, AutoRename := false,
      Mute := true, ClientModified := "" }

lemma writeOp_step (f : FileSt) (b : List Nat)
    (h1 : f.pipeWClosed = false) (h2 : f.pipeRErr = none) :
    File.WriteOp f b =
      (.ok b.length, { f with writing := true, pipeBuf := f.pipeBuf ++ b }) := by
  by_cases hw : f.writing
  · cases f
    simp_all [File.WriteOp]
  · cases f
    simp_all [File.WriteOp]

lemma runWrites_go : ∀ (ws : List (List Nat)) (f : FileSt),
    f.pipeWClosed = false → f.pipeRErr = none → ws ≠ [] →
    runWrites f ws =
      { f with writing := true, pipeBuf := f.pipeBuf ++ ws.flatten } := by
  intro ws
  induction ws with
  | nil => intro f _ _ h; exact absurd rfl h
  | cons b rest ih =>
    intro f h1 h2 _
    have hstep : runWrites f (b :: rest) =
        runWrites { f with writing := true, pipeBuf := f.pipeBuf ++ b } rest := by
      rw [runWrites, writeOp_step f b h1 h2]
    rw [hstep]
    by_cases hr : rest = []
    · subst hr
      simp [runWrites]
    · rw [ih { f with writing := true, pipeBuf := f.pipeBuf ++ b } h1 h2 hr]
      cases f
      simp [List.append_assoc]

/-- C1: writing a byte sequence `B` (in any nonzero number of chunks) to
an open handle and then closing it causes exactly one observed call to
the upload endpoint, with body exactly `B` and the request record
serialized into the `Dropbox-API-Arg` header carrying the handle's path,
mode `overwrite`, autorename `false` and mute `true`. -/
theorem upload_roundtrip : ∀ (token name : String)
    (dl : Except ClientErr (List Nat)) (ws : List (List Nat)), ws ≠ [] →
    (File.CloseOp (runWrites (Client.Open token name dl) ws)).1 = .ok () ∧
    (File.CloseOp (runWrites (Client.Open token name dl) ws)).2.calls =
      [contentReq token "/files/upload" (uploadArg name) (some ws.flatten)] ∧
    uploadArg "/hello.txt" =
      "\x7b\"path\":\"/hello.txt\",\"mode\":\"overwrite\",\"autorename\":false,\"mute\":true\x7d" := by
  intro token name dl ws hws
  rw [runWrites_go ws (Client.Open token name dl) rfl rfl hws]
  refine ⟨rfl, ?_, by decide⟩
  simp [Client.Open, File.CloseOp, Files.Upload, uploadArg]

/-- Witness for `upload_roundtrip`: writing "hi" in two chunks to
`/hello.txt` and closing yields exactly one upload request carrying those
bytes. -/
theorem upload_roundtrip_witness :
    (([[104], [105]] : List (List Nat)) ≠ []) ∧
    (File.CloseOp (runWrites (Client.Open "tok" "/hello.txt" (.ok []))
        [[104], [105]])).1 = .ok () ∧
    (File.CloseOp (runWrites (Client.Open "tok" "/hello.txt" (.ok []))
        [[104], [105]])).2.calls =
      [contentReq "tok" "/files/upload" (uploadArg "/hello.txt")
        (some [104, 105])] ∧
    uploadArg "/hello.txt" =
      "\x7b\"path\":\"/hello.txt\",\"mode\":\"overwrite\",\"autorename\":false,\"mute\":true\x7d" :=
  ⟨by decide, upload_roundtrip "tok" "/hello.txt" (.ok []) [[104], [105]]
    (by decide)⟩

/-- C2 counterexample: `File.Read` and `File.Write` never consult the
`closed` flag, so a handle closed while still idle (never read, never
written) accepts a subsequent write — the pipe's writer end was never
closed — contradicting the claim that once closed every further operation
fails. -/
theorem closed_idle_handle_write_succeeds :
    (File.CloseOp (Client.Open "tok" "/a" (.ok []))).1 = .ok () ∧
    ((File.CloseOp (Client.Open "tok" "/a" (.ok []))).2).closed = true ∧
    (File.WriteOp ((File.CloseOp (Client.Open "tok" "/a" (.ok []))).2) [7]).1 =
      .ok 1 := by
  refine ⟨rfl, rfl, rfl⟩

/-- C2 amended: after a close, a further close fails with `EINVAL`; a
further write fails if the handle was in writing state when closed (the
pipe's writer end is closed); a further read fails if the handle held a
download body when closed (the body is closed). Operations on a handle
closed while idle are not rejected. -/
theorem closed_handle_ops_fail : ∀ (f : FileSt), f.closed = false →
    ((File.CloseOp ((File.CloseOp f).2)).1 =
      .error (.pathErr "close" f.Name .EINVAL)) ∧
    (f.writing = true →
      ∀ b, (File.WriteOp ((File.CloseOp f).2) b).1 = .error .closedPipe) ∧
    (∀ r, f.reader = some r →
      ∀ n, (File.ReadOp ((File.CloseOp f).2) n).1 = .error .readClosedBody) := by
  intro f hcl
  by_cases hw : f.writing
  all_goals
    rcases hr : f.reader with _ | r
  all_goals
    refine ⟨?_, ?_, ?_⟩
  all_goals
    simp_all [File.CloseOp, File.WriteOp, File.ReadOp, File.readBody]

/-- A handle in both reading and writing state, for the close witness. -/
def busyFile : FileSt :=
  { Name := "/w", token := "tok", downloadRes := .ok [1, 2],
    closed := false, writing := true, reader := some { buf := [5], closed := false },
    pipeBuf := [9], pipeWClosed := false, pipeRErr := none, calls := [] }

/-- Witness for `closed_handle_ops_fail` on a handle that was reading and
writing before the close. -/
theorem closed_handle_ops_fail_witness :
    busyFile.closed = false ∧
    ((File.CloseOp ((File.CloseOp busyFile).2)).1 =
      .error (.pathErr "close" "/w" .EINVAL)) ∧
    ((File.WriteOp ((File.CloseOp busyFile).2) [3]).1 = .error .closedPipe) ∧
    ((File.ReadOp ((File.CloseOp busyFile).2) 4).1 = .error .readClosedBody) :=
  ⟨rfl, (closed_handle_ops_fail busyFile rfl).1,
    (closed_handle_ops_fail busyFile rfl).2.1 rfl [3],
    (closed_handle_ops_fail busyFile rfl).2.2
      { buf := [5], closed := false } rfl 4⟩

/-- C3: when the first read's download call fails, an error whose text
begins with `path/not_found/` is translated to a "no such file or
directory" system error with op `open` and the handle's path (the service
error does not leak through), and every other error is returned
unchanged. -/
theorem not_found_translation : ∀ (token name : String) (e : ClientErr) (n : Nat),
    (goHasPrefix e.text "path/not_found/" = true →
      (File.ReadOp (Client.Open token name (.error e)) n).1 =
        .error (.pathErr "open" name .ENOENT)) ∧
    (goHasPrefix e.text "path/not_found/" = false →
      (File.ReadOp (Client.Open token name (.error e)) n).1 =
        .error (.client e)) := by
  intro token name e n
  constructor <;> intro h <;>
    simp [Client.Open, File.ReadOp, File.downloadOp, h]

/-- Witness for `not_found_translation`: a `path/not_found/...` download
error becomes ENOENT for `/missing`, while a different service error is
propagated unchanged. -/
theorem not_found_translation_witness :
    (goHasPrefix "path/not_found/.." "path/not_found/" = true ∧
      (File.ReadOp (Client.Open "tok" "/missing"
          (.error { text := "path/not_found/.." })) 8).1 =
        .error (.pathErr "open" "/missing" .ENOENT)) ∧
    (goHasPrefix "too_many_requests/" "path/not_found/" = false ∧
      (File.ReadOp (Client.Open "tok" "/missing"
          (.error { text := "too_many_requests/" })) 8).1 =
        .error (.client { text := "too_many_requests/" })) :=
  ⟨⟨by decide, (not_found_translation "tok" "/missing"
      { text := "path/not_found/.." } 8).1 (by decide)⟩,
   ⟨by decide, (not_found_translation "tok" "/missing"
      { text := "too_many_requests/" } 8).2 (by decide)⟩⟩

/-- C8: closing a handle whose closed flag is already set fails with an
"invalid argument" system error carrying op `close` and the handle's
path, and leaves the handle's state unchanged. -/
theorem double_close_einval : ∀ (f : FileSt), f.closed = true →
    File.CloseOp f = (.error (.pathErr "close" f.Name .EINVAL), f) := by
  intro f h
  simp [File.CloseOp, h]

/-- Witness for `double_close_einval` on a concrete closed handle. -/
theorem double_close_einval_witness :
    ((File.CloseOp (Client.Open "tok" "/d" (.ok []))).2).closed = true ∧
    File.CloseOp ((File.CloseOp (Client.Open "tok" "/d" (.ok []))).2) =
      (.error (.pathErr "close" "/d" .EINVAL),
        (File.CloseOp (Client.Open "tok" "/d" (.ok []))).2) :=
  ⟨rfl, double_close_einval ((File.CloseOp (Client.Open "tok" "/d" (.ok []))).2) rfl⟩

/-- Source struct `Metadata` (files.go), restricted to its plain data
fields; the optional media/sharing sub-records are omitted because no
claim inspects them, and timestamps are carried as RFC3339 text. -/
structure Metadata where
  Tag : String
  Name : String
  PathLower : String
  PathDisplay : String
  ClientModified : String
  ServerModified : String
  Rev : String
  Size : Nat
  ID : String
  ContentHash : String
deriving DecidableEq

/-- Source struct `FileInfo`: the os.FileInfo view wrapping a metadata
record. -/
structure FileInfo where
  meta : Metadata
deriving DecidableEq

/-- IsDir predicate of the file-info view: the tag is exactly `folder`. -/
def FileInfo.IsDir (f : FileInfo) : Bool :=
  f.meta.Tag == "folder"

/-- One listing page as the service emits it (`ListFolderOutput`):
cursor, has-more flag, and the entries in service order. -/
structure Page where
  cursor : String
  hasMore : Bool
  entries : List Metadata
deriving DecidableEq

/-- The file-info wrappers a page's entries produce, in order. -/
def Page.infos (p : Page) : List FileInfo :=
  p.entries.map (fun m => { meta := m })

/-- All file-info entries of a page sequence, concatenated in service
order. -/
def allInfos (pages : List Page) : List FileInfo :=
  (pages.map Page.infos).flatten

/-- A page sequence as the service would actually emit it: nonempty,
every page but the last advertises more, and the last page ends the
listing (`has_more == false`). -/
def serviceComplete : List Page → Bool
  | [] => false
  | [p] => !p.hasMore
  | p :: q :: rest => p.hasMore && serviceComplete (q :: rest)

/-- Embeds the loop of `Client.ListN` over a fake service that emits the
given pages in order (the cursor is opaque and drives nothing in the
fake): append each page's entries to the accumulator; if the cap is
non-negative and reached, truncate to the cap and stop; if the page says
no more, stop; otherwise fetch the next page. Running out of fake pages
while the service still advertises more is a fake-transport failure. -/
def listNLoop : List Page → Int → List FileInfo → Except Err (List FileInfo)
  | [], _, _ => .error .noPage
  | p :: rest, n, acc =>
    if 0 ≤ n ∧ n ≤ (((acc ++ p.infos).length : Nat) : Int) then
      .ok ((acc ++ p.infos).take n.toNat)
    else if p.hasMore then listNLoop rest n (acc ++ p.infos)
    else .ok (acc ++ p.infos)

/-- Embeds `Client.ListN`: a non-positive cap is replaced by `-1` (list
all), the loop runs, and a non-negative cap with an empty result is
turned into an end-of-stream (`io.EOF`) error. -/
def Client.ListN (pages : List Page) (n0 : Int) : Except Err (List FileInfo) :=
  let n := if n0 ≤ 0 then -1 else n0
  match listNLoop pages n [] with
  | .error e => .error e
  | .ok l => if 0 ≤ n ∧ l.length = 0 then .error .eofErr else .ok l

lemma allInfos_cons (p : Page) (rest : List Page) :
    allInfos (p :: rest) = p.infos ++ allInfos rest := by
  simp [allInfos]

lemma allInfos_single (p : Page) : allInfos [p] = p.infos := by
  simp [allInfos]

lemma listNLoop_reaches_cap : ∀ (pages : List Page) (n : Int) (acc : List FileInfo),
    serviceComplete pages = true → 1 ≤ n → ((acc.length : Int) < n) →
    (n ≤ (acc.length : Int) + ((allInfos pages).length : Int)) →
    listNLoop pages n acc = .ok ((acc ++ allInfos pages).take n.toNat) := by
  intro pages
  induction pages with
  | nil =>
    intro n acc hsc
    simp [serviceComplete] at hsc
  | cons p rest ih =>
    intro n acc hsc hn hacc hcap
    match rest, hsc with
    | [], hsc =>
      rw [allInfos_single] at hcap ⊢
      have hcap2 : n ≤ (((acc ++ p.infos).length : Nat) : Int) := by
        simp only [List.length_append]
        push_cast
        omega
      rw [listNLoop, if_pos ⟨by omega, hcap2⟩]
    | q :: rest', hsc =>
      have hsplit : p.hasMore = true ∧ serviceComplete (q :: rest') = true := by
        simpa [serviceComplete, Bool.and_eq_true] using hsc
      by_cases hcap1 : n ≤ (((acc ++ p.infos).length : Nat) : Int)
      · have hle : n.toNat ≤ (acc ++ p.infos).length := by omega
        rw [listNLoop, if_pos ⟨by omega, hcap1⟩, allInfos_cons,
          ← List.append_assoc, List.take_append_of_le_length hle]
      · have hstep : listNLoop (p :: q :: rest') n acc =
            listNLoop (q :: rest') n (acc ++ p.infos) := by
          rw [listNLoop, if_neg (fun hand => hcap1 hand.2), hsplit.1]
          simp
        have hcap2 : n ≤ (((acc ++ p.infos).length : Nat) : Int) +
            ((allInfos (q :: rest')).length : Int) := by
          rw [allInfos_cons] at hcap
          simp only [List.length_append] at hcap ⊢
          push_cast at hcap ⊢
          omega
        rw [hstep, ih n (acc ++ p.infos) hsplit.2 hn (by omega) hcap2,
          allInfos_cons p (q :: rest'), ← List.append_assoc]

lemma listNLoop_exhausts : ∀ (pages : List Page) (n : Int) (acc : List FileInfo),
    serviceComplete pages = true → 1 ≤ n →
    ((acc.length : Int) + ((allInfos pages).length : Int) < n) →
    listNLoop pages n acc = .ok (acc ++ allInfos pages) := by
  intro pages
  induction pages with
  | nil =>
    intro n acc hsc
    simp [serviceComplete] at hsc
  | cons p rest ih =>
    intro n acc hsc hn hlt
    match rest, hsc with
    | [], hsc =>
      have hm : p.hasMore = false := by
        simpa [serviceComplete] using hsc
      rw [allInfos_single] at hlt ⊢
      have hnocap : ¬ (n ≤ (((acc ++ p.infos).length : Nat) : Int)) := by
        simp only [List.length_append]
        push_cast
        omega
      rw [listNLoop, if_neg (fun hand => hnocap hand.2), hm]
      simp
    | q :: rest', hsc =>
      have hsplit : p.hasMore = true ∧ serviceComplete (q :: rest') = true := by
        simpa [serviceComplete, Bool.and_eq_true] using hsc
      rw [allInfos_cons] at hlt
      simp only [List.length_append] at hlt
      push_cast at hlt
      have hnocap : ¬ (n ≤ (((acc ++ p.infos).length : Nat) : Int)) := by
        simp only [List.length_append]
        push_cast
        omega
      have hstep : listNLoop (p :: q :: rest') n acc =
          listNLoop (q :: rest') n (acc ++ p.infos) := by
        rw [listNLoop, if_neg (fun hand => hnocap hand.2), hsplit.1]
        simp
      rw [hstep, ih n (acc ++ p.infos) hsplit.2 hn
          (by simp only [List.length_append]; push_cast; omega),
        allInfos_cons p (q :: rest'), ← List.append_assoc]

lemma listNLoop_stops : ∀ (pre suf : List Page) (n : Int) (acc : List FileInfo),
    pre ≠ [] → 0 ≤ n →
    ((n ≤ (acc.length : Int) + ((allInfos pre).length : Int)) ∨
      ∃ p ∈ pre, p.hasMore = false) →
    listNLoop (pre ++ suf) n acc = listNLoop pre n acc := by
  intro pre
  induction pre with
  | nil =>
    intro suf n acc hne
    exact absurd rfl hne
  | cons p pre' ih =>
    intro suf n acc _ hn hstop
    by_cases hcap : n ≤ (((acc ++ p.infos).length : Nat) : Int)
    · rw [List.cons_append, listNLoop, listNLoop,
        if_pos ⟨hn, hcap⟩, if_pos ⟨hn, hcap⟩]
    · have hnand : ¬ (0 ≤ n ∧ n ≤ (((acc ++ p.infos).length : Nat) : Int)) :=
        fun hand => hcap hand.2
      rcases hm : p.hasMore with _ | _
      · rw [List.cons_append, listNLoop, listNLoop,
          if_neg hnand, if_neg hnand, hm]
        simp
      · have hpre' : pre' ≠ [] := by
          intro hnil
          subst hnil
          rcases hstop with hstop | ⟨q, hq, hqm⟩
          · apply hcap
            rw [allInfos_single] at hstop
            simp only [List.length_append]
            push_cast
            omega
          · simp only [List.mem_singleton] at hq
            subst hq
            rw [hm] at hqm
            exact Bool.noConfusion hqm
        rw [List.cons_append, listNLoop, listNLoop,
          if_neg hnand, if_neg hnand, hm]
        simp only [show ((true = true) = True) by simp]
        simp only [if_true]
        apply ih suf n (acc ++ p.infos) hpre' hn
        rcases hstop with hstop | ⟨q, hq, hqm⟩
        · left
          rw [allInfos_cons] at hstop
          simp only [List.length_append] at hstop ⊢
          push_cast at hstop ⊢
          omega
        · right
          refine ⟨q, ?_, hqm⟩
          rcases List.mem_cons.mp hq with hq | hq
          · subst hq
            rw [hm] at hqm
            exact Bool.noConfusion hqm
          · exact hq

lemma listN_unfold (pages : List Page) (n : Int) (hn : ¬ (n ≤ 0)) :
    Client.ListN pages n =
      match listNLoop pages n [] with
      | .error e => .error e
      | .ok l => if 0 ≤ n ∧ l.length = 0 then .error .eofErr else .ok l := by
  unfold Client.ListN
  rw [if_neg hn]

/-- C5 counterexample: with cap 1 and a service whose single page is
empty, list-up-to-n does not return the min(1, 0) = 0 entries the claim
requires — it fails with an end-of-stream error instead. -/
theorem listN_min_counterexample :
    Client.ListN [{ cursor := "", hasMore := false, entries := [] }] 1 =
      .error .eofErr ∧
    Client.ListN [{ cursor := "", hasMore := false, entries := [] }] 1 ≠
      .ok [] := by
  exact ⟨by decide, by decide⟩

/-- C5 amended: for every cap n ≥ 1 and every complete page sequence from
the service holding at least one entry in total, list-up-to-n returns
exactly min(n, total) entries, a prefix of the concatenation of the pages
in service order (truncated to exactly n when n is reached), and the loop
never touches pages beyond one at which a stopping condition (cap reached
or has-more false) already holds; when the pages hold zero entries the
call instead fails with an end-of-stream error. -/
theorem listN_cap_spec : ∀ (pages : List Page) (n : Int),
    serviceComplete pages = true → 1 ≤ n → 1 ≤ (allInfos pages).length →
    (Client.ListN pages n =
      .ok ((allInfos pages).take (min n.toNat (allInfos pages).length))) ∧
    (∀ pre suf, pages = pre ++ suf → pre ≠ [] →
      ((n ≤ ((allInfos pre).length : Int)) ∨ ∃ p ∈ pre, p.hasMore = false) →
      listNLoop (pre ++ suf) n [] = listNLoop pre n []) := by
  intro pages n hsc hn htot
  constructor
  · have hacc : ((([] : List FileInfo).length : Nat) : Int) < n := by
      simp
      omega
    by_cases hcase : n ≤ ((allInfos pages).length : Int)
    · have hloop := listNLoop_reaches_cap pages n [] hsc hn hacc
        (by simpa using hcase)
      rw [List.nil_append] at hloop
      rw [listN_unfold pages n (by omega), hloop]
      have hne : ¬ (0 ≤ n ∧ ((allInfos pages).take n.toNat).length = 0) := by
        intro hand
        rw [List.length_take] at hand
        omega
      show (if 0 ≤ n ∧ ((allInfos pages).take n.toNat).length = 0 then
          Except.error Err.eofErr
        else Except.ok ((allInfos pages).take n.toNat)) = _
      rw [if_neg hne, min_eq_left (by omega : n.toNat ≤ (allInfos pages).length)]
    · have hloop := listNLoop_exhausts pages n [] hsc hn
        (by simp; omega)
      rw [List.nil_append] at hloop
      rw [listN_unfold pages n (by omega), hloop]
      have hne : ¬ (0 ≤ n ∧ (allInfos pages).length = 0) := by
        intro hand
        omega
      show (if 0 ≤ n ∧ (allInfos pages).length = 0 then Except.error Err.eofErr
        else Except.ok (allInfos pages)) = _
      rw [if_neg hne,
        min_eq_right (by omega : (allInfos pages).length ≤ n.toNat),
        List.take_length]
  · intro pre suf hps hpre hstop
    apply listNLoop_stops pre suf n [] hpre (by omega)
    rcases hstop with hstop | hstop
    · left
      simpa using hstop
    · right
      exact hstop

/-- A file entry with the given name, for the listing witnesses. -/
def sampleMeta (s : String) : Metadata :=
  { Tag := "file", Name := s, PathLower := s, PathDisplay := s,
    ClientModified := "", ServerModified := "", Rev := "", Size := 0,
    ID := s, ContentHash := "" }

/-- Three pages of three entries each, for the listing-cap witness. -/
def capPages : List Page :=
  [{ cursor := "c1", hasMore := true,
     entries := [sampleMeta "a", sampleMeta "b", sampleMeta "c"] },
   { cursor := "c2", hasMore := true,
     entries := [sampleMeta "d", sampleMeta "e", sampleMeta "f"] },
   { cursor := "", hasMore := false,
     entries := [sampleMeta "g", sampleMeta "h", sampleMeta "i"] }]

/-- Witness for `listN_cap_spec`: cap 5 over pages of sizes [3, 3, 3]
yields exactly the first five entries in order. -/
theorem listN_cap_spec_witness :
    serviceComplete capPages = true ∧ (1 : Int) ≤ 5 ∧
    1 ≤ (allInfos capPages).length ∧
    Client.ListN capPages 5 =
      .ok [{ meta := sampleMeta "a" }, { meta := sampleMeta "b" },
        { meta := sampleMeta "c" }, { meta := sampleMeta "d" },
        { meta := sampleMeta "e" }] :=
  ⟨by decide, by decide, by decide,
    (listN_cap_spec capPages 5 (by decide) (by decide) (by decide)).1⟩

/-- C6 counterexample: with cap 0 — non-negative — and an empty listing,
list-up-to-n returns the empty sequence with no error (the code maps
`n <= 0` to `-1`, "list all", before the end-of-stream check), not the
end-of-stream error the claim requires. -/
theorem listN_zero_cap_counterexample :
    Client.ListN [{ cursor := "", hasMore := false, entries := [] }] 0 =
      .ok [] ∧
    Client.ListN [{ cursor := "", hasMore := false, entries := [] }] 0 ≠
      .error .eofErr := by
  exact ⟨by decide, by decide⟩

/-- C6 amended: for every strictly positive cap n ≥ 1, a call that
terminates with zero accumulated entries fails with an end-of-stream
error instead of returning an empty sequence (a cap of 0 is treated as
"list all" and returns the empty sequence without error). -/
theorem listN_eof_on_empty : ∀ (pages : List Page) (n : Int),
    serviceComplete pages = true → 1 ≤ n → (allInfos pages).length = 0 →
    Client.ListN pages n = .error .eofErr := by
  intro pages n hsc hn hlen
  have hloop := listNLoop_exhausts pages n [] hsc hn (by simp [hlen]; omega)
  rw [List.nil_append] at hloop
  rw [listN_unfold pages n (by omega), hloop]
  show (if 0 ≤ n ∧ (allInfos pages).length = 0 then Except.error Err.eofErr
    else Except.ok (allInfos pages)) = _
  rw [if_pos ⟨by omega, hlen⟩]

/-- Witness for `listN_eof_on_empty`: cap 10 over a single empty final
page yields the end-of-stream error. -/
theorem listN_eof_on_empty_witness :
    serviceComplete [{ cursor := "", hasMore := false, entries := [] }] = true ∧
    (1 : Int) ≤ 10 ∧
    (allInfos [{ cursor := "", hasMore := false, entries := [] }]).length = 0 ∧
    Client.ListN [{ cursor := "", hasMore := false, entries := [] }] 10 =
      .error .eofErr :=
  ⟨by decide, by decide, by decide,
    listN_eof_on_empty [{ cursor := "", hasMore := false, entries := [] }] 10
      (by decide) (by decide) (by decide)⟩

end GoDropbox
